import Mathlib

/-!
Verification of the variable-width font layer (`src/variable_font/mod.rs` and
`src/variable_font/mapping.rs`) of the embedded-graphics fork.

The two source files define:
* `LookupTableGlyphWidthMapping::glyph_width` — a table-driven character-width
  policy with a default/fallback path;
* `VariableFont` — a composer over a `MonoFont` that crops each glyph to the
  mapped width range and measures string widths.

`MonoFont`, the `Font` trait surface it provides, and the glyph crop operation
(`sub_image`) live outside the two source files; they are modelled from the
specification's interface description (section 6 of the spec).

Machine integers: widths are `u32`, table entries `u8`.  They are embedded as
`Nat`; where the Rust code performs unchecked `u32` addition the embedding
reduces modulo `2 ^ 32`, and `saturating_sub` becomes truncated `Nat`
subtraction (both operands being below `2 ^ 32`).
-/

namespace VariableFontSpec

/-- `2 ^ 32`, the modulus of `u32` arithmetic. -/
def U32_MOD : Nat := 2 ^ 32

/-- `i32::MAX` as a natural number; `u32 -> i32` conversion by `try_into`
succeeds exactly on values up to this bound. -/
def I32_MAX : Nat := 2 ^ 31 - 1

/-- Pixel dimensions (`embedded_graphics::geometry::Size`, fields `width` and
`height`, both `u32`). -/
structure Size where
  width : Nat
  height : Nat
deriving DecidableEq

/-- A point with signed (`i32`) coordinates
(`embedded_graphics::geometry::Point`). -/
structure Point where
  x : Int
  y : Int
deriving DecidableEq

/-- A rectangle given by its top-left corner and size
(`embedded_graphics::primitives::Rectangle`). -/
structure Rectangle where
  top_left : Point
  size : Size
deriving DecidableEq

/-- Decoration (strikethrough/underline) placement metrics
(`mono_font::DecorationDimensions`); opaque to the composer, which only passes
it through. -/
structure DecorationDimensions where
  height : Nat
  offset : Nat
deriving DecidableEq

/-- `core::ops::Range<u32>`: the half-open interval `start .. stop` ( `end` in
Rust; renamed because `end` is a Lean keyword). -/
structure Range32 where
  start : Nat
  stop : Nat
deriving DecidableEq

/-- `Range::<u32>::is_empty`: the range is empty when `start >= end`. -/
def Range32.is_empty (r : Range32) : Bool :=
  r.stop ≤ r.start

/-- `RangeSize::range_size` from `src/variable_font/mapping.rs`: `0` for an
empty range, else `end - start`. -/
def Range32.range_size (r : Range32) : Nat :=
  if r.is_empty then 0 else r.stop - r.start

/-- Modelled from the spec: a glyph is "an opaque pixel-region image type
produced by the underlying font; the Composer's only operation on it is
sub-region extraction (crop), never pixel decoding".  The only observable the
claims use is its pixel size. -/
structure Glyph where
  size : Size
deriving DecidableEq

/-- Modelled from the spec: the crop operation on a glyph image.  Per the
interface contract, "crop takes an origin and a size, both in pixels", and the
cropped glyph has the requested rectangle's size. -/
def Glyph.sub_image (_g : Glyph) (area : Rectangle) : Glyph :=
  ⟨area.size⟩

/-- Modelled from the spec: the fixed-width font collaborator (`MonoFont`),
specified at its interface boundary only: a deterministic character-to-glyph-
index resolution, the native per-glyph cell size, fixed inter-character
spacing, baseline offset, and decoration placement metrics. -/
structure MonoFont where
  glyph_mapping : Char → Nat
  character_size : Size
  character_spacing : Nat
  baseline : Nat
  strikethrough : DecorationDimensions
  underline : DecorationDimensions

/-- Modelled from the spec: `MonoFont`'s glyph retrieval returns the full
fixed-width cell image for a character ("native cell width/height"). -/
def MonoFont.glyph (font : MonoFont) (_c : Char) : Glyph :=
  ⟨font.character_size⟩

/-- Modelled from the spec: the underlying font's character height is its
native cell height. -/
def MonoFont.character_height (font : MonoFont) : Nat :=
  font.character_size.height

/-- `LookupTableGlyphWidthMapping` from `src/variable_font/mapping.rs`: a
borrowed `&[u8]` lookup table indexed by glyph index, plus an optional default
width. -/
structure LookupTableGlyphWidthMapping where
  lookup_table : List Nat
  default_width : Option Nat

/-- `LookupTableGlyphWidthMapping::new`. -/
def LookupTableGlyphWidthMapping.new (lookup_table : List Nat)
    (default_width : Option Nat) : LookupTableGlyphWidthMapping :=
  ⟨lookup_table, default_width⟩

/-- `LookupTableGlyphWidthMapping::glyph_width` from
`src/variable_font/mapping.rs`:
resolve the glyph index through the font, return `0..table[glyph_index]` when
in bounds, else `0..default_width.unwrap_or(font.character_size.width)`. -/
def LookupTableGlyphWidthMapping.glyph_width
    (self : LookupTableGlyphWidthMapping) (font : MonoFont) (c : Char) :
    Range32 :=
  let glyph_index := font.glyph_mapping c
  if h : glyph_index < self.lookup_table.length then
    ⟨0, self.lookup_table.get ⟨glyph_index, h⟩⟩
  else
    ⟨0, self.default_width.getD font.character_size.width⟩

/-- A `&'a dyn GlyphWidthMapping` reference: the address of the referent (used
by `core::ptr::eq`) together with the behaviour of its `glyph_width` method. -/
structure GlyphWidthMappingRef where
  addr : Nat
  glyph_width : MonoFont → Char → Range32

/-- `VariableFont` from `src/variable_font/mod.rs`: an underlying monospaced
font plus a borrowed glyph width mapping. -/
structure VariableFont where
  mono_font : MonoFont
  glyph_width_mapping : GlyphWidthMappingRef

/-- `u32 -> i32` conversion via `TryInto`: succeeds exactly when the value fits
in `i32`, i.e. is at most `I32_MAX`. -/
def u32_try_into_i32 (n : Nat) : Option Int :=
  if n ≤ I32_MAX then some (Int.ofNat n) else none

/-- `VariableFont::glyph` from `src/variable_font/mod.rs`: fetch the full mono
glyph, query the width mapping, and crop to a rectangle at
`(glyph_width.start, 0)` of size `(glyph_width.range_size, mono height)`.
The source converts `glyph_width.start` with `.try_into().unwrap()`; the
`unwrap` aborts when the start does not fit in `i32`, embedded here as
`none`. -/
def VariableFont.glyph (self : VariableFont) (c : Char) : Option Glyph :=
  let mono_glyph := self.mono_font.glyph c
  let mono_glyph_size := mono_glyph.size
  let glyph_width := self.glyph_width_mapping.glyph_width self.mono_font c
  match u32_try_into_i32 glyph_width.start with
  | none => none
  | some x =>
      some (mono_glyph.sub_image
        ⟨⟨x, 0⟩, ⟨glyph_width.range_size, mono_glyph_size.height⟩⟩)

/-- `VariableFont::character_height`: delegation to the underlying font. -/
def VariableFont.character_height (self : VariableFont) : Nat :=
  self.mono_font.character_height

/-- `VariableFont::character_spacing`: delegation to the underlying font. -/
def VariableFont.character_spacing (self : VariableFont) : Nat :=
  self.mono_font.character_spacing

/-- `VariableFont::baseline`: delegation to the underlying font. -/
def VariableFont.baseline (self : VariableFont) : Nat :=
  self.mono_font.baseline

/-- `VariableFont::strikethrough`: delegation to the underlying font. -/
def VariableFont.strikethrough (self : VariableFont) : DecorationDimensions :=
  self.mono_font.strikethrough

/-- `VariableFont::underline`: delegation to the underlying font. -/
def VariableFont.underline (self : VariableFont) : DecorationDimensions :=
  self.mono_font.underline

/-- `VariableFont::measure_string_width` from `src/variable_font/mod.rs`:
fold over the characters accumulating mapped range size plus spacing with
unchecked `u32` addition (reduced mod `2 ^ 32`), then remove one trailing
spacing with `saturating_sub` (truncated `Nat` subtraction). -/
def VariableFont.measure_string_width (self : VariableFont)
    (text : List Char) : Nat :=
  (text.foldl
      (fun a c =>
        (a + (self.glyph_width_mapping.glyph_width self.mono_font c).range_size
          + self.mono_font.character_spacing) % U32_MOD)
      0)
    - self.mono_font.character_spacing

/-- `impl PartialEq for VariableFont` from `src/variable_font/mod.rs`:
fonts compared by value, mappings by `core::ptr::eq` (address identity). -/
def VariableFont.eq (self other : VariableFont) : Prop :=
  self.mono_font = other.mono_font ∧
    self.glyph_width_mapping.addr = other.glyph_width_mapping.addr

/-- `LookupTableGlyphWidthMapping::glyph_width` with the receiver's state
threaded explicitly: the Rust method takes `&self` (a shared, read-only
borrow), so the state out is the state in. -/
def LookupTableGlyphWidthMapping.glyph_width_run
    (self : LookupTableGlyphWidthMapping) (font : MonoFont) (c : Char) :
    Range32 × LookupTableGlyphWidthMapping :=
  (self.glyph_width font c, self)

/-- Sum over the characters of a string of the width-mapped range size (the
spec's summation formula, section 8). -/
def sumWidths (f : VariableFont) (text : List Char) : Nat :=
  (text.map
    (fun c =>
      (f.glyph_width_mapping.glyph_width f.mono_font c).range_size)).sum

/-! Concrete sample data for witnesses, following the spec's concrete
scenario: table `[3, 5, 0, 8]`, native cell width `10`, spacing `1`. -/

/-- A sample monospaced font: letters map to glyph indices `0, 1, 2, ...`
(`'a' -> 0`, `'e' -> 4`, ...), cell `10 x 12`, spacing `1`. -/
def sampleFont : MonoFont :=
  { glyph_mapping := fun c => c.toNat - 97
    character_size := ⟨10, 12⟩
    character_spacing := 1
    baseline := 9
    strikethrough := ⟨1, 5⟩
    underline := ⟨1, 11⟩ }

/-- The spec's sample lookup table with no default width. -/
def sampleTableNone : LookupTableGlyphWidthMapping :=
  LookupTableGlyphWidthMapping.new [3, 5, 0, 8] none

/-- The spec's sample lookup table with default width `4`. -/
def sampleTableSome : LookupTableGlyphWidthMapping :=
  LookupTableGlyphWidthMapping.new [3, 5, 0, 8] (some 4)

/-- A mapping reference at address `0` whose behaviour is the sample table's. -/
def sampleMappingRefA : GlyphWidthMappingRef :=
  ⟨0, sampleTableNone.glyph_width⟩

/-- A second mapping reference, value-identical to `sampleMappingRefA` but at
a distinct address `1`. -/
def sampleMappingRefB : GlyphWidthMappingRef :=
  ⟨1, sampleTableNone.glyph_width⟩

/-- The sample composer: sample font plus the sample table mapping. -/
def sampleVF : VariableFont :=
  ⟨sampleFont, sampleMappingRefA⟩

/-- The sample composer with the same font and a value-identical mapping at a
different address. -/
def sampleVF' : VariableFont :=
  ⟨sampleFont, sampleMappingRefB⟩

/-- A font identical to `sampleFont` except for an extreme inter-character
spacing of `u32::MAX`, used to exhibit wrap-around in the measurement fold. -/
def overflowFont : MonoFont :=
  { glyph_mapping := fun c => c.toNat - 97
    character_size := ⟨10, 12⟩
    character_spacing := 2 ^ 32 - 1
    baseline := 9
    strikethrough := ⟨1, 5⟩
    underline := ⟨1, 11⟩ }

/-- A width mapping that assigns every character the empty range `0..0`. -/
def zeroWidthMappingRef : GlyphWidthMappingRef :=
  ⟨3, fun _ _ => ⟨0, 0⟩⟩

/-- Composer whose exact measurement total exceeds `u32::MAX` already for two
characters, through the spacing alone. -/
def overflowVF : VariableFont :=
  ⟨overflowFont, zeroWidthMappingRef⟩

/-- A font identical to `sampleFont` except for spacing `3`, paired below with
half-cell-modulus glyph widths. -/
def wrapFont : MonoFont :=
  { glyph_mapping := fun c => c.toNat - 97
    character_size := ⟨10, 12⟩
    character_spacing := 3
    baseline := 9
    strikethrough := ⟨1, 5⟩
    underline := ⟨1, 11⟩ }

/-- A width mapping assigning every character the range `0..2 ^ 31`. -/
def halfModMappingRef : GlyphWidthMappingRef :=
  ⟨4, fun _ _ => ⟨0, 2 ^ 31⟩⟩

/-- Composer for which two characters make the accumulator pass `2 ^ 32`:
the wrapped result is tiny instead of saturated. -/
def wrapVF : VariableFont :=
  ⟨wrapFont, halfModMappingRef⟩

/-- Spec-side definition for the refinement claim C6: the horizontal extent a
caller observes by retrieving each character's glyph via `glyph()` (the
glyph's width being its crop width) and laying the glyphs out left-to-right
separated by the font's fixed inter-character spacing. -/
def observed_layout_width (f : VariableFont) (text : List Char) : Nat :=
  if text.isEmpty then 0
  else
    (text.map (fun c => ((f.glyph c).map (fun g => g.size.width)).getD 0)).sum
      + f.mono_font.character_spacing * (text.length - 1)

/-! ## Helper lemmas -/

/-- Accumulation lemma for `measure_string_width`'s fold: as long as the exact
running total stays below `2 ^ 32`, no step wraps and the fold computes the
exact sum of mapped widths plus one spacing per character. -/
theorem measure_foldl_eq (f : VariableFont) (text : List Char) :
    ∀ a : Nat,
      a + sumWidths f text +
          f.mono_font.character_spacing * text.length < U32_MOD →
      text.foldl
        (fun a c =>
          (a + (f.glyph_width_mapping.glyph_width f.mono_font c).range_size
            + f.mono_font.character_spacing) % U32_MOD) a =
        a + sumWidths f text +
          f.mono_font.character_spacing * text.length := by
  induction text with
  | nil =>
      intro a h
      simp [sumWidths]
  | cons c cs ih =>
      intro a h
      rw [sumWidths, List.map_cons, List.sum_cons, List.length_cons,
        Nat.mul_succ] at h
      have hstep :
          a + (f.glyph_width_mapping.glyph_width f.mono_font c).range_size
            + f.mono_font.character_spacing < U32_MOD := by
        omega
      have hih :
          (a + (f.glyph_width_mapping.glyph_width f.mono_font c).range_size
              + f.mono_font.character_spacing) + sumWidths f cs +
            f.mono_font.character_spacing * cs.length < U32_MOD := by
        rw [sumWidths]
        omega
      rw [List.foldl_cons, Nat.mod_eq_of_lt hstep, ih _ hih, sumWidths,
        sumWidths, List.map_cons, List.sum_cons, List.length_cons,
        Nat.mul_succ]
      omega

/-- Exact characterization of `measure_string_width` when the exact total fits
in `u32`: sum of mapped widths plus spacing times one less than the length. -/
theorem measure_string_width_eq_of_fits (f : VariableFont) (text : List Char)
    (h : sumWidths f text +
        f.mono_font.character_spacing * text.length < U32_MOD) :
    f.measure_string_width text =
      sumWidths f text +
        f.mono_font.character_spacing * (text.length - 1) := by
  unfold VariableFont.measure_string_width
  rw [measure_foldl_eq f text 0 (by simpa using h)]
  rcases text with _ | ⟨c, cs⟩
  · simp [sumWidths]
  · simp only [List.length_cons, Nat.mul_succ, Nat.succ_sub_one]
    generalize f.mono_font.character_spacing * cs.length = P
    omega

/-! ## Claims -/

/-- C1: for every font and character whose glyph index is within the lookup
table bounds, `LookupTableGlyphWidthMapping::glyph_width` returns the range
`0..table[index]`. -/
theorem c1_in_table_width (m : LookupTableGlyphWidthMapping) (font : MonoFont)
    (c : Char) (h : font.glyph_mapping c < m.lookup_table.length) :
    m.glyph_width font c =
      ⟨0, m.lookup_table.get ⟨font.glyph_mapping c, h⟩⟩ := by
  simp [LookupTableGlyphWidthMapping.glyph_width, h]

/-- C1 witness: `'a'` resolves to glyph index `0`, within the sample table's
bounds, and its width range is `0..3`. -/
theorem c1_witness :
    sampleFont.glyph_mapping 'a' < sampleTableNone.lookup_table.length ∧
    sampleTableNone.glyph_width sampleFont 'a' = ⟨0, 3⟩ := by
  refine ⟨by decide, ?_⟩
  have h := c1_in_table_width sampleTableNone sampleFont 'a' (by decide)
  simpa using h

/-- C2: for every font and character whose glyph index is out of the table's
bounds (the comparison is strict, so an index equal to the length is out of
range), `glyph_width` returns `0..default_width` when a default is configured
and otherwise `0..font.character_size.width`. -/
theorem c2_out_of_table_width (m : LookupTableGlyphWidthMapping)
    (font : MonoFont) (c : Char)
    (h : m.lookup_table.length ≤ font.glyph_mapping c) :
    (∀ d, m.default_width = some d → m.glyph_width font c = ⟨0, d⟩) ∧
    (m.default_width = none →
      m.glyph_width font c = ⟨0, font.character_size.width⟩) := by
  have h' : ¬ font.glyph_mapping c < m.lookup_table.length := Nat.not_lt.mpr h
  constructor
  · intro d hd
    simp [LookupTableGlyphWidthMapping.glyph_width, h', hd]
  · intro hd
    simp [LookupTableGlyphWidthMapping.glyph_width, h', hd]

/-- C2 witness: `'e'` resolves to glyph index `4`, exactly the sample table's
length, hence out of range; with no default the width falls back to the native
cell width `10`, with default `4` it is `0..4`. -/
theorem c2_witness :
    sampleTableNone.lookup_table.length ≤ sampleFont.glyph_mapping 'e' ∧
    sampleTableNone.glyph_width sampleFont 'e' = ⟨0, 10⟩ ∧
    sampleTableSome.glyph_width sampleFont 'e' = ⟨0, 4⟩ := by
  refine ⟨by decide, ?_, ?_⟩
  · exact (c2_out_of_table_width sampleTableNone sampleFont 'e'
      (by decide)).2 rfl
  · exact (c2_out_of_table_width sampleTableSome sampleFont 'e'
      (by decide)).1 4 rfl

/-- C7: two composers are equal exactly when their underlying fonts are equal
by value and their width-mapping references have the same address; in
particular, equal fonts with value-identical mapping behaviour at distinct
addresses compare unequal. -/
theorem c7_eq_iff_same_font_and_mapping_ref (a b : VariableFont) :
    (VariableFont.eq a b ↔
      a.mono_font = b.mono_font ∧
        a.glyph_width_mapping.addr = b.glyph_width_mapping.addr) ∧
    (a.mono_font = b.mono_font →
      a.glyph_width_mapping.glyph_width = b.glyph_width_mapping.glyph_width →
      a.glyph_width_mapping.addr ≠ b.glyph_width_mapping.addr →
      ¬ VariableFont.eq a b) :=
  ⟨Iff.rfl, fun _ _ hne hEq => hne hEq.2⟩

/-- C7 witness: the sample composer equals itself (same font, same mapping
reference), and differs from the composer built from the same font and a
value-identical mapping object at a different address. -/
theorem c7_witness :
    VariableFont.eq sampleVF sampleVF ∧ ¬ VariableFont.eq sampleVF sampleVF' := by
  constructor
  · exact (c7_eq_iff_same_font_and_mapping_ref sampleVF sampleVF).1.mpr
      ⟨rfl, rfl⟩
  · exact (c7_eq_iff_same_font_and_mapping_ref sampleVF sampleVF').2
      rfl rfl (by decide)

/-- C8: each metric of the composer (`character_height`, `character_spacing`,
`baseline`, `strikethrough`, `underline`) equals the underlying font's value,
and is unchanged by swapping the width mapping. -/
theorem c8_metric_delegation (font : MonoFont)
    (m1 m2 : GlyphWidthMappingRef) :
    (VariableFont.mk font m1).character_height = font.character_height ∧
    (VariableFont.mk font m1).character_spacing = font.character_spacing ∧
    (VariableFont.mk font m1).baseline = font.baseline ∧
    (VariableFont.mk font m1).strikethrough = font.strikethrough ∧
    (VariableFont.mk font m1).underline = font.underline ∧
    (VariableFont.mk font m1).character_height =
      (VariableFont.mk font m2).character_height ∧
    (VariableFont.mk font m1).character_spacing =
      (VariableFont.mk font m2).character_spacing ∧
    (VariableFont.mk font m1).baseline = (VariableFont.mk font m2).baseline ∧
    (VariableFont.mk font m1).strikethrough =
      (VariableFont.mk font m2).strikethrough ∧
    (VariableFont.mk font m1).underline =
      (VariableFont.mk font m2).underline :=
  ⟨rfl, rfl, rfl, rfl, rfl, rfl, rfl, rfl, rfl, rfl⟩

/-- C3 (amended): `measure_string_width` of the empty string is `0`; for a
non-empty string, provided the exact total (sum of mapped sizes plus spacing
times the length) stays below `2 ^ 32` so that no intermediate `u32` addition
wraps, it equals the sum of mapped range sizes plus spacing times one less
than the length, the trailing spacing being removed by a saturating
subtraction. -/
theorem c3_measure_sum_formula (f : VariableFont) (text : List Char)
    (h : sumWidths f text +
        f.mono_font.character_spacing * text.length < U32_MOD) :
    (text = [] → f.measure_string_width text = 0) ∧
    (text ≠ [] →
      f.measure_string_width text =
        sumWidths f text +
          f.mono_font.character_spacing * (text.length - 1)) := by
  constructor
  · intro he
    subst he
    simp [VariableFont.measure_string_width]
  · intro _
    exact measure_string_width_eq_of_fits f text h

/-- C3 witness: on the sample composer, `"acb"` has mapped widths
`3, 0, 5` and spacing `1`, so the measured width is `8 + 1 * 2 = 10`;
the empty string measures `0`. -/
theorem c3_witness :
    sumWidths sampleVF ['a', 'c', 'b'] +
        sampleVF.mono_font.character_spacing * 3 < U32_MOD ∧
    sampleVF.measure_string_width ['a', 'c', 'b'] = 10 ∧
    sampleVF.measure_string_width [] = 0 := by
  refine ⟨by decide, ?_, ?_⟩
  · have h := (c3_measure_sum_formula sampleVF ['a', 'c', 'b']
      (by decide)).2 (by decide)
    rw [h]
    decide
  · exact (c3_measure_sum_formula sampleVF [] (by decide)).1 rfl

/-- C3 counterexample: with spacing `u32::MAX` and all-zero widths, the fold
wraps on the second character, so the measured width of a two-character string
is `0` while the claimed formula gives `u32::MAX`. -/
theorem c3_counterexample :
    ¬ (overflowVF.measure_string_width ['a', 'b'] =
        sumWidths overflowVF ['a', 'b'] +
          overflowVF.mono_font.character_spacing * (2 - 1)) := by
  decide

/-- C6 (amended): provided every character's mapped range start fits in `i32`
(so `glyph()` succeeds) and the exact accumulated total fits in `u32`,
`measure_string_width` equals the horizontal extent observed by laying out the
glyphs returned by `glyph()` left-to-right with fixed spacing. -/
theorem c6_measure_matches_layout (f : VariableFont) (text : List Char)
    (hstart : ∀ c ∈ text,
      (f.glyph_width_mapping.glyph_width f.mono_font c).start ≤ I32_MAX)
    (h : sumWidths f text +
        f.mono_font.character_spacing * text.length < U32_MOD) :
    f.measure_string_width text = observed_layout_width f text := by
  have hw : ∀ c ∈ text,
      ((f.glyph c).map (fun g => g.size.width)).getD 0 =
        (f.glyph_width_mapping.glyph_width f.mono_font c).range_size := by
    intro c hc
    have hs := hstart c hc
    simp [VariableFont.glyph, u32_try_into_i32, hs, Glyph.sub_image]
  have hsum : (text.map
      (fun c => ((f.glyph c).map (fun g => g.size.width)).getD 0)).sum =
      sumWidths f text := by
    rw [sumWidths]
    congr 1
    exact List.map_congr_left hw
  rw [measure_string_width_eq_of_fits f text h]
  unfold observed_layout_width
  rcases text with _ | ⟨c, cs⟩
  · simp [sumWidths]
  · rw [if_neg (by simp), hsum]

/-- C6 witness: on the sample composer and `"acb"`, both hypotheses hold
concretely and the measured width coincides with the observed layout
extent. -/
theorem c6_witness :
    (∀ c ∈ (['a', 'c', 'b'] : List Char),
      (sampleVF.glyph_width_mapping.glyph_width sampleVF.mono_font c).start
        ≤ I32_MAX) ∧
    sumWidths sampleVF ['a', 'c', 'b'] +
        sampleVF.mono_font.character_spacing * 3 < U32_MOD ∧
    sampleVF.measure_string_width ['a', 'c', 'b'] =
      observed_layout_width sampleVF ['a', 'c', 'b'] := by
  refine ⟨by decide, by decide, ?_⟩
  exact c6_measure_matches_layout sampleVF ['a', 'c', 'b']
    (by decide) (by decide)

/-- C6 counterexample: with spacing `u32::MAX` and all-zero widths, every
glyph is returned (width `0`) and the observed layout extent of a
two-character string is `u32::MAX`, but `measure_string_width` wraps and
returns `0`. -/
theorem c6_counterexample :
    ¬ (overflowVF.measure_string_width ['a', 'b'] =
        observed_layout_width overflowVF ['a', 'b']) := by
  decide

/-- C9: the per-character accumulation is unchecked `u32` addition (reduced
modulo `2 ^ 32`) and only the final trailing-spacing subtraction saturates:
whenever the exact total fits in `u32` the summation formula holds, while at a
concrete overflowing input (two glyphs of width `2 ^ 31`, spacing `3`) the
accumulator wraps to `6` and the result is `3` — not the saturated value. -/
theorem c9_wrapping_accumulation :
    (∀ (f : VariableFont) (text : List Char),
        sumWidths f text +
            f.mono_font.character_spacing * text.length < U32_MOD →
        f.measure_string_width text =
          sumWidths f text +
            f.mono_font.character_spacing * (text.length - 1)) ∧
    wrapVF.measure_string_width ['a', 'b'] = 3 := by
  constructor
  · intro f text h
    exact measure_string_width_eq_of_fits f text h
  · decide

/-- C9 witness: the fitting-total branch applied at the sample composer and
`"ab"`: widths `3, 5`, spacing `1`, measured width `9`. -/
theorem c9_witness :
    sumWidths sampleVF ['a', 'b'] +
        sampleVF.mono_font.character_spacing * 2 < U32_MOD ∧
    sampleVF.measure_string_width ['a', 'b'] = 9 := by
  refine ⟨by decide, ?_⟩
  have h := c9_wrapping_accumulation.1 sampleVF ['a', 'b'] (by decide)
  rw [h]
  decide

/-- C4: whenever `VariableFont::glyph` returns a glyph, that glyph is the mono
glyph cropped to a rectangle whose width is the width-mapped range's size and
whose height is the underlying glyph's full native height; the width mapping
never affects the vertical extent. -/
theorem c4_glyph_crop_size (f : VariableFont) (c : Char) (g : Glyph)
    (h : f.glyph c = some g) :
    g.size.width =
      (f.glyph_width_mapping.glyph_width f.mono_font c).range_size ∧
    g.size.height = (f.mono_font.glyph c).size.height := by
  simp only [VariableFont.glyph] at h
  split at h
  · exact Option.noConfusion h
  · simp only [Glyph.sub_image, Option.some.injEq] at h
    subst h
    exact ⟨rfl, rfl⟩

/-- C4 witness: on the sample composer, `'a'` yields a glyph of size `3 x 12`:
width `3` from the table, height `12` the native cell height. -/
theorem c4_witness :
    sampleVF.glyph 'a' = some ⟨⟨3, 12⟩⟩ ∧
    (Glyph.mk ⟨3, 12⟩).size.width =
      (sampleVF.glyph_width_mapping.glyph_width sampleVF.mono_font 'a').range_size ∧
    (Glyph.mk ⟨3, 12⟩).size.height =
      (sampleVF.mono_font.glyph 'a').size.height :=
  ⟨by decide, c4_glyph_crop_size sampleVF 'a' ⟨⟨3, 12⟩⟩ (by decide)⟩

/-- C5 (amended): the table-driven lookup always produces a range starting at
`0`, and the composer's `glyph` cannot fail provided the width-mapped range's
start fits in `i32` — which the table-driven mapping always satisfies.
(`measure_string_width` and the metric queries are total by construction.) -/
theorem c5_no_failure_paths (f : VariableFont) (c : Char)
    (m : LookupTableGlyphWidthMapping)
    (h : (f.glyph_width_mapping.glyph_width f.mono_font c).start ≤ I32_MAX) :
    (f.glyph c).isSome = true ∧
    (m.glyph_width f.mono_font c).start = 0 := by
  constructor
  · simp [VariableFont.glyph, u32_try_into_i32, h]
  · by_cases hb : f.mono_font.glyph_mapping c < m.lookup_table.length
    · simp [LookupTableGlyphWidthMapping.glyph_width, hb]
    · simp [LookupTableGlyphWidthMapping.glyph_width, hb]

/-- C5 witness: on the sample composer the range start is `0 ≤ i32::MAX`,
`glyph` succeeds, and the table-driven range indeed starts at `0`. -/
theorem c5_witness :
    (sampleVF.glyph_width_mapping.glyph_width sampleVF.mono_font 'a').start
      ≤ I32_MAX ∧
    (sampleVF.glyph 'a').isSome = true ∧
    (sampleTableNone.glyph_width sampleVF.mono_font 'a').start = 0 :=
  ⟨by decide, c5_no_failure_paths sampleVF 'a' sampleTableNone (by decide)⟩

/-- A width mapping whose range start does not fit in `i32`; legal under the
`GlyphWidthMapping` trait, since any closure of the right shape implements
it. -/
def hugeStartMappingRef : GlyphWidthMappingRef :=
  ⟨2, fun _ _ => ⟨2 ^ 31, 2 ^ 31 + 5⟩⟩

/-- The sample font composed with the huge-start width mapping. -/
def hugeStartVF : VariableFont :=
  ⟨sampleFont, hugeStartMappingRef⟩

/-- C5 counterexample: with a width mapping returning a range starting at
`2 ^ 31`, the conversion `glyph_width.start.try_into().unwrap()` inside
`VariableFont::glyph` aborts — the fatal-error branch is reachable, refuting
the claim for arbitrary width mappings. -/
theorem c5_counterexample : hugeStartVF.glyph 'a' = none := by decide

/-- C10: the table-driven width query is deterministic and mutation-free:
with the receiver's state threaded explicitly, the query leaves the state
unchanged, and a second run on the resulting state returns the same range and
again the original state. -/
theorem c10_query_deterministic_stateless (m : LookupTableGlyphWidthMapping)
    (font : MonoFont) (c : Char) :
    (m.glyph_width_run font c).2 = m ∧
    ((m.glyph_width_run font c).2.glyph_width_run font c).1 =
      (m.glyph_width_run font c).1 ∧
    ((m.glyph_width_run font c).2.glyph_width_run font c).2 = m :=
  ⟨rfl, rfl, rfl⟩

end VariableFontSpec
